import Mathlib

/-!
TimescaleDB loader and utilities: a shallow embedding of `src/loader` and `src/utils.c`.

The loader is the small stub that stays in the host's preload list and pulls in
the versioned extension module the first time a session needs it.  This file
embeds `extension.c`, `load.c` and `init.c` as pure functions over an explicit
process state and an explicit record of host answers, and proves properties of
those functions.  It also embeds the arithmetic of `utils.c` (epoch conversion,
time bucketing, the memory estimate, `int_cmp`) for the build with 64-bit
integer timestamps.

Conventions.

* A C string is a Lean `String`; every `Char` of it stands for one `char` of
  the C string, so `String.length` is `strlen`.
* The file-level and function-level `static` variables of the C code are the
  fields of `LoaderState`.
* The host (PostgreSQL) is a record of answers, `Host`; one trigger event sees
  one such record.
* `ereport(ERROR, ...)` unwinds out of the running function; a call therefore
  returns a `Ran` record whose `error` field is `some e` when an error left the
  call, together with the state the statics are left in and the host calls made.
* A C integer is a Lean `Int`; every arithmetic operation of `utils.c` is followed
  by the reduction to its width (`wrap64`, `wrap32`), so that a result that does
  not fit wraps as two's-complement arithmetic does.
-/

namespace TimescaleDB

/-! ## Host data -/

/-- Object identifier of the host catalog. -/
abbrev Oid := Nat

/-- The host's `InvalidOid`. -/
def InvalidOid : Oid := 0

/-- The host's `OidIsValid` test. -/
def OidIsValid (o : Oid) : Bool := o != InvalidOid

/-- Value of `EXTENSION_NAME` in `extension.h`. -/
def EXTENSION_NAME : String := "timescaledb"

/-- Value of `EXTENSION_PROXY_TABLE` in `extension.c`. -/
def EXTENSION_PROXY_TABLE : String := "cache_inval_extension"

/-- Value of `CACHE_SCHEMA_NAME` in `extension.c`. -/
def CACHE_SCHEMA_NAME : String := "_timescaledb_cache"

/-- One row of the `pg_extension` catalog, reduced to the two attributes the
loader reads; `extversion = none` is an SQL null. -/
structure PgExtension where
  extname : String
  extversion : Option String
deriving DecidableEq

/-- Answers of the host at one trigger event.  `get_namespace_oid` and
`get_extension_oid` are the `missing_ok = true` forms, which answer `InvalidOid`
instead of raising.  `load_file` answers `true` when the module was loaded and
`false` when the host raised an error for it.  `null_arg_text` is what the C
library writes for a null pointer given to a `%s` conversion. -/
structure Host where
  IsTransactionState : Bool
  get_namespace_oid : String → Oid
  get_relname_relid : String → Oid → Oid
  get_extension_oid : String → Oid
  pg_extension : List PgExtension
  load_file : String → Bool
  null_arg_text : String

/-- Errors that unwind out of loader code. -/
inductive PgError where
  | could_not_load_library (soname : String)
  | library_not_preloaded (config_file : String)
  | unrecognized_configuration_parameter (name : String)
deriving DecidableEq

/-- The calls the loader makes, in the order it makes them. -/
inductive Call where
  | IsTransactionState
  | get_namespace_oid (nspname : String)
  | get_relname_relid (relname : String) (nsid : Oid)
  | get_extension_oid (extname : String)
  | load_extension
  | extension_version
  | load_file (soname : String)
  | foreign_hook (id : Nat) (pstate query : Nat)
deriving DecidableEq

/-- The statics of the loader: `loaded` of `extension.c` and `sql_version`, the
function-level static of `extension_version` in `load.c`. -/
structure LoaderState where
  loaded : Bool
  sql_version : Option String
deriving DecidableEq

/-- The statics at process start: `loaded = false`, `sql_version = NULL`. -/
def LoaderState.initial : LoaderState := ⟨false, none⟩

/-- Result of running a piece of loader code. -/
structure Ran where
  error : Option PgError
  state : LoaderState
  trace : List Call
deriving DecidableEq

/-! ## `extension.c`: the precondition probes -/

/-- The function `proxy_table_exists`: look the cache schema up, then the proxy table in it. -/
def proxy_table_exists (h : Host) : Bool :=
  let nsid := h.get_namespace_oid CACHE_SCHEMA_NAME
  let proxy_table := h.get_relname_relid EXTENSION_PROXY_TABLE nsid
  OidIsValid proxy_table

/-- Host calls made by `proxy_table_exists`. -/
def proxy_table_exists_trace (h : Host) : List Call :=
  [Call.get_namespace_oid CACHE_SCHEMA_NAME,
   Call.get_relname_relid EXTENSION_PROXY_TABLE (h.get_namespace_oid CACHE_SCHEMA_NAME)]

/-- The function `extension_exists`: the catalog existence lookup. -/
def extension_exists (h : Host) : Bool :=
  OidIsValid (h.get_extension_oid EXTENSION_NAME)

/-- Host calls made by `extension_exists`. -/
def extension_exists_trace : List Call :=
  [Call.get_extension_oid EXTENSION_NAME]

/-! ## `load.c` -/

/-- Index scan of `pg_extension` with the key `extname = key`, first tuple. -/
def systable_getnext (rel : List PgExtension) (key : String) : Option PgExtension :=
  rel.find? (fun t => t.extname == key)

/-- The function `extension_version`.  `sql_version` is a function-level static:
it is assigned only when a tuple is found whose version is not null, and
otherwise keeps the value an earlier call left in it. -/
def extension_version (st : LoaderState) (h : Host) : Option String × LoaderState :=
  match systable_getnext h.pg_extension EXTENSION_NAME with
  | some tuple =>
    match tuple.extversion with
    | some result => (some result, { st with sql_version := some result })
    | none => (st.sql_version, st)
  | none => (st.sql_version, st)

/-- The call `snprintf(buf, size, "%s-%s", a, b)`: the formatted text, cut to
the `size - 1` characters that fit before the terminating NUL. -/
def snprintf (size : Nat) (a b : String) : String :=
  ⟨(a ++ "-" ++ b).data.take (size - 1)⟩

/-- The text `snprintf` receives for the `version` pointer: the string, or the
C library's rendering of a null pointer. -/
def version_text (h : Host) (version : Option String) : String :=
  match version with
  | some v => v
  | none => h.null_arg_text

/-- The module identifier `soname` computed by `load_extension`. -/
def soname (st : LoaderState) (h : Host) : String :=
  snprintf 100 EXTENSION_NAME (version_text h (extension_version st h).1)

/-- The function `load_extension`: resolve the version, format `soname` into a
buffer of 100, hand it to `load_file`. -/
def load_extension (st : LoaderState) (h : Host) : Ran :=
  let st1 := (extension_version st h).2
  let name := soname st h
  { error := if h.load_file name then none else some (PgError.could_not_load_library name)
    state := st1
    trace := [Call.load_extension, Call.extension_version, Call.load_file name] }

/-! ## `extension.c`: the activation gate -/

/-- The function `extension_check`.  The three probes are evaluated left to
right with the short-circuit of `&&`; `loaded = true` is reached only when
`load_extension` returned. -/
def extension_check (st : LoaderState) (h : Host) : Ran :=
  if !st.loaded then
    if h.IsTransactionState then
      if proxy_table_exists h then
        if extension_exists h then
          let r := load_extension st h
          match r.error with
          | some e =>
            { error := some e
              state := r.state
              trace := Call.IsTransactionState :: proxy_table_exists_trace h
                         ++ extension_exists_trace ++ r.trace }
          | none =>
            { error := none
              state := { r.state with loaded := true }
              trace := Call.IsTransactionState :: proxy_table_exists_trace h
                         ++ extension_exists_trace ++ r.trace }
        else
          { error := none, state := st
            trace := Call.IsTransactionState :: proxy_table_exists_trace h
                       ++ extension_exists_trace }
      else
        { error := none, state := st
          trace := Call.IsTransactionState :: proxy_table_exists_trace h }
    else
      { error := none, state := st, trace := [Call.IsTransactionState] }
  else
    { error := none, state := st, trace := [] }

/-- The three preconditions of activation, as `extension_check` evaluates them. -/
def preconditions (h : Host) : Bool :=
  h.IsTransactionState && proxy_table_exists h && extension_exists h

/-- A sequence of trigger events delivered to one process: each event runs
`extension_check` on the state the previous one left (an error aborts the
statement, not the process). -/
def run : LoaderState → List Host → List Ran
  | _, [] => []
  | st, h :: hs => extension_check st h :: run (extension_check st h).state hs

/-- State of the statics after a sequence of trigger events. -/
def final_state : LoaderState → List Host → LoaderState
  | st, [] => st
  | st, h :: hs => final_state (extension_check st h).state hs

/-- Number of invocations of `load_extension` recorded in a trace. -/
def load_count (t : List Call) : Nat := t.count Call.load_extension

/-- Number of invocations of `load_extension` over the events of a run. -/
def load_calls (rs : List Ran) : Nat := (rs.map (fun r => load_count r.trace)).sum

/-- Number of events of a run in which `load_extension` ran and returned. -/
def load_successes (rs : List Ran) : Nat :=
  (rs.filter (fun r => decide (0 < load_count r.trace) && r.error.isNone)).length

/-- Number of events of a run that ended in an error. -/
def load_failures (rs : List Ran) : Nat :=
  (rs.filter (fun r => r.error.isSome)).length

/-- A host in which every precondition holds, the catalog holds version
`1.2.0`, and `load_file` answers `ok` for every identifier. -/
def sample_host (ok : Bool) : Host where
  IsTransactionState := true
  get_namespace_oid := fun _ => 2200
  get_relname_relid := fun _ _ => 16385
  get_extension_oid := fun _ => 16384
  pg_extension := [⟨"plpgsql", some "1.0"⟩, ⟨"timescaledb", some "1.2.0"⟩]
  load_file := fun _ => ok
  null_arg_text := "(null)"

/-! ## `init.c` -/

/-- A `Datum` of the host, as the machine word it is. -/
abbrev Datum := Nat

/-- The callback `inval_cache_callback(arg, relid)`: its body is the call
`extension_check()`. -/
def inval_cache_callback (_arg : Datum) (_relid : Oid) (st : LoaderState) (h : Host) : Ran :=
  extension_check st h

/-- The hook `post_analyze_hook(pstate, query)`: its body is the call
`extension_check()`; the two pointers are not used. -/
def post_analyze_hook (_pstate _query : Nat) (st : LoaderState) (h : Host) : Ran :=
  extension_check st h

/-- Entries of the host's relcache-callback list: the loader's callback, or
another module's. -/
inductive RelcacheCallback where
  | inval_cache_callback
  | foreign (id : Nat)
deriving DecidableEq

/-- Values of the host's `post_parse_analyze_hook` pointer: the loader's hook,
or another module's. -/
inductive PostParseHook where
  | post_analyze_hook
  | foreign (id : Nat)
deriving DecidableEq

/-- The two host slots `_PG_init` writes to. -/
structure Registry where
  relcache_callback_list : List RelcacheCallback
  post_parse_analyze_hook : Option PostParseHook
deriving DecidableEq

/-- What the host answers while the module is attached. `GetConfigOptionByName`
answers `none` for a setting that does not exist. -/
structure AttachHost where
  process_shared_preload_libraries_in_progress : Bool
  GetConfigOptionByName : String → Option String

/-- The C library's `strlen`. -/
def strlen (s : String) : Nat := s.length

/-- The C library's `strncmp` on character lists: the difference of the first
pair of characters that differ among the first `n`, a missing character counting
as NUL. -/
def strncmp_chars : List Char → List Char → Nat → Int
  | _, _, 0 => 0
  | [], [], _ + 1 => 0
  | [], b :: _, _ + 1 => - (b.toNat : Int)
  | a :: _, [], _ + 1 => (a.toNat : Int)
  | a :: as, b :: bs, n + 1 =>
    if a = b then strncmp_chars as bs n else (a.toNat : Int) - (b.toNat : Int)

/-- The C library's `strncmp`. -/
def strncmp (a b : String) (n : Nat) : Int := strncmp_chars a.data b.data n

/-- The host's `CacheRegisterRelcacheCallback`: the callback is added to the list. -/
def CacheRegisterRelcacheCallback (reg : Registry) (cb : RelcacheCallback) : Registry :=
  { reg with relcache_callback_list := reg.relcache_callback_list ++ [cb] }

/-- The error `_PG_init` raises when the library is not preloaded.  The lookup of
`config_file` is made with `missing_ok = false` and raises on its own when the
setting does not exist. -/
def not_preloaded_error (env : AttachHost) : PgError :=
  match env.GetConfigOptionByName "config_file" with
  | some config_file => PgError.library_not_preloaded config_file
  | none => PgError.unrecognized_configuration_parameter "config_file"

/-- The registration part of `_PG_init`: register the relcache callback, then
assign the post-parse hook pointer. -/
def register_triggers (reg : Registry) : Registry :=
  { CacheRegisterRelcacheCallback reg RelcacheCallback.inval_cache_callback with
    post_parse_analyze_hook := some PostParseHook.post_analyze_hook }

/-- The function `_PG_init`. -/
def _PG_init (env : AttachHost) (reg : Registry) : Option PgError × Registry :=
  if !env.process_shared_preload_libraries_in_progress then
    match env.GetConfigOptionByName "timescaledb.allow_install_without_preload" with
    | none => (some (not_preloaded_error env), reg)
    | some allow_install_without_preload =>
      if strlen allow_install_without_preload != 2
          || strncmp allow_install_without_preload "on" 2 != 0 then
        (some (not_preloaded_error env), reg)
      else
        (none, register_triggers reg)
  else
    (none, register_triggers reg)

/-- The host's dispatch of a post-parse event: the function the hook pointer
holds is called with the parse state and the query; a null pointer calls nothing. -/
def post_parse_event (reg : Registry) (pstate query : Nat) (st : LoaderState) (h : Host) : Ran :=
  match reg.post_parse_analyze_hook with
  | none => { error := none, state := st, trace := [] }
  | some PostParseHook.post_analyze_hook => post_analyze_hook pstate query st h
  | some (PostParseHook.foreign id) =>
    { error := none, state := st, trace := [Call.foreign_hook id pstate query] }

/-! ## The two trigger sources -/

/-- A trigger event, with the arguments the host passes to its handler. -/
inductive Trigger where
  | invalidation (arg : Datum) (relid : Oid)
  | parse (pstate query : Nat)
deriving DecidableEq

/-- The handler the loader registered for a trigger event. -/
def fire (t : Trigger) (st : LoaderState) (h : Host) : Ran :=
  match t with
  | Trigger.invalidation arg relid => inval_cache_callback arg relid st h
  | Trigger.parse pstate query => post_analyze_hook pstate query st h

/-- Two trigger events in a row: the first sees the host answers `h1`, the
second runs on the state the first left and sees the host answers `h2`. -/
def fire_two (t1 t2 : Trigger) (st : LoaderState) (h1 h2 : Host) : Ran × Ran :=
  (fire t1 st h1, fire t2 (fire t1 st h1).state h2)

/-- The module identifiers handed to `load_file` in a trace. -/
def sonames_loaded (t : List Call) : List String :=
  t.filterMap (fun c => match c with
    | Call.load_file s => some s
    | _ => none)

/-! ## `utils.c`: machine integers and host constants -/

/-- Least value of `int64`. -/
def INT64_MIN : Int := -9223372036854775808

/-- Greatest value of `int64`. -/
def INT64_MAX : Int := 9223372036854775807

/-- Least value of `int`. -/
def INT_MIN : Int := -2147483648

/-- Greatest value of `int`. -/
def INT_MAX : Int := 2147483647

/-- The value is an `int64`. -/
def in_int64 (x : Int) : Prop := INT64_MIN ≤ x ∧ x ≤ INT64_MAX

instance (x : Int) : Decidable (in_int64 x) := by
  unfold in_int64; exact inferInstance

/-- The value is an `int`. -/
def in_int32 (x : Int) : Prop := INT_MIN ≤ x ∧ x ≤ INT_MAX

instance (x : Int) : Decidable (in_int32 x) := by
  unfold in_int32; exact inferInstance

/-- Reduction of an integer to the `int64` with the same low 64 bits. -/
def wrap64 (x : Int) : Int :=
  (x + 9223372036854775808) % 18446744073709551616 - 9223372036854775808

/-- Reduction of an integer to the `int` with the same low 32 bits. -/
def wrap32 (x : Int) : Int :=
  (x + 2147483648) % 4294967296 - 2147483648

/-- The host's `USECS_PER_DAY`. -/
def USECS_PER_DAY : Int := 86400000000

/-- The host's `UNIX_EPOCH_JDATE`. -/
def UNIX_EPOCH_JDATE : Int := 2440588

/-- The host's `POSTGRES_EPOCH_JDATE`. -/
def POSTGRES_EPOCH_JDATE : Int := 2451545

/-- The host's `DATETIME_MIN_JULIAN`. -/
def DATETIME_MIN_JULIAN : Int := 0

/-- The host's `MIN_TIMESTAMP` for integer timestamps. -/
def MIN_TIMESTAMP : Int := -211813488000000000

/-- The host's `END_TIMESTAMP` for integer timestamps. -/
def END_TIMESTAMP : Int := 9223371331200000000

/-- The host's `DT_NOBEGIN` for integer timestamps. -/
def DT_NOBEGIN : Int := INT64_MIN

/-- The host's `DT_NOEND` for integer timestamps. -/
def DT_NOEND : Int := INT64_MAX

/-- The host's `TIMESTAMP_NOT_FINITE`. -/
def TIMESTAMP_NOT_FINITE (j : Int) : Bool := j == DT_NOBEGIN || j == DT_NOEND

/-- The host's `BLCKSZ`, at its default. -/
def BLCKSZ : Int := 8192

/-- The host's `Max` on integers: `((x) > (y) ? (x) : (y))`. -/
def Max (x y : Int) : Int := if x > y then x else y

/-- Errors raised by the code of `utils.c`.  `division_by_zero` stands for the
trap of an integer division by zero. -/
inductive UtilsError where
  | timestamp_out_of_range
  | interval_month_not_supported
  | division_by_zero
  | missing_configuration (name : String)
  | could_not_parse (name : String)
deriving DecidableEq

deriving instance DecidableEq for Except

/-! ## `utils.c`: epoch conversion -/

/-- The local `epoch_diff_microseconds` of `pg_timestamp_to_unix_microseconds`:
`(POSTGRES_EPOCH_JDATE - UNIX_EPOCH_JDATE) * USECS_PER_DAY`. -/
def epoch_diff_microseconds : Int :=
  wrap64 ((POSTGRES_EPOCH_JDATE - UNIX_EPOCH_JDATE) * USECS_PER_DAY)

/-- The function `pg_timestamp_to_unix_microseconds`, integer timestamps. -/
def pg_timestamp_to_unix_microseconds (timestamp : Int) : Except UtilsError Int :=
  if timestamp < MIN_TIMESTAMP then
    Except.error UtilsError.timestamp_out_of_range
  else if timestamp ≥ wrap64 (END_TIMESTAMP - epoch_diff_microseconds) then
    Except.error UtilsError.timestamp_out_of_range
  else
    Except.ok (wrap64 (timestamp + epoch_diff_microseconds))

/-- The function `pg_unix_microseconds_to_timestamp`, integer timestamps. -/
def pg_unix_microseconds_to_timestamp (microseconds : Int) : Except UtilsError Int :=
  if microseconds < wrap64 (USECS_PER_DAY * (DATETIME_MIN_JULIAN - UNIX_EPOCH_JDATE)) then
    Except.error UtilsError.timestamp_out_of_range
  else
    Except.ok (wrap64 (microseconds
      - wrap64 ((POSTGRES_EPOCH_JDATE - UNIX_EPOCH_JDATE) * USECS_PER_DAY)))

/-! ## `utils.c`: `int_cmp` -/

/-- The function `int_cmp` on the two pointed-to `int` values: their difference,
as an `int`. -/
def int_cmp (ia ib : Int) : Int := wrap32 (ia - ib)

/-! ## `utils.c`: time bucketing -/

/-- The host's `Interval`: `time` is an `int64` of microseconds, `day` and
`month` are `int32`. -/
structure Interval where
  time : Int
  day : Int
  month : Int
deriving DecidableEq

/-- The function `get_interval_period`, integer timestamps. -/
def get_interval_period (interval : Interval) : Except UtilsError Int :=
  if interval.month != 0 then
    Except.error UtilsError.interval_month_not_supported
  else
    Except.ok (wrap64 (interval.time + wrap64 (interval.day * USECS_PER_DAY)))

/-- The host's `TMODULO(t, q, u)` for integer timestamps: `q = t / u` with the
division of C, which truncates toward zero, then `t -= q * u` when `q` is not
zero.  The pair is the new `t` and `q`. -/
def TMODULO (t u : Int) : Int × Int :=
  let q := wrap64 (Int.tdiv t u)
  if q != 0 then (wrap64 (t - wrap64 (q * u)), q) else (t, q)

/-- The function `timestamp_bucket`, integer timestamps.  After `TMODULO` the
variable `timestamp` holds the remainder of the division, and it is this
remainder that the test `timestamp < 0` reads. -/
def timestamp_bucket (interval : Interval) (timestamp : Int) : Except UtilsError Int :=
  if TIMESTAMP_NOT_FINITE timestamp then
    Except.ok timestamp
  else
    match get_interval_period interval with
    | Except.error e => Except.error e
    | Except.ok period =>
      if period == 0 then
        Except.error UtilsError.division_by_zero
      else
        let tq := TMODULO timestamp period
        if tq.1 < 0 then
          Except.ok (wrap64 (wrap64 (tq.2 * period) - period))
        else
          Except.ok (wrap64 (tq.2 * period))

/-- The function `timestamptz_bucket`, integer timestamps: the same statements
as `timestamp_bucket`, on a `TimestampTz`. -/
def timestamptz_bucket (interval : Interval) (timestamp : Int) : Except UtilsError Int :=
  if TIMESTAMP_NOT_FINITE timestamp then
    Except.ok timestamp
  else
    match get_interval_period interval with
    | Except.error e => Except.error e
    | Except.ok period =>
      if period == 0 then
        Except.error UtilsError.division_by_zero
      else
        let tq := TMODULO timestamp period
        if tq.1 < 0 then
          Except.ok (wrap64 (wrap64 (tq.2 * period) - period))
        else
          Except.ok (wrap64 (tq.2 * period))

/-- No step of the bucketing of `timestamp` by `interval` leaves `int64`: the
product and the sum of `get_interval_period`, and the subtraction of one more
period when the remainder is negative.  (The quotient, its product with the
period and the remainder are never larger in size than the timestamp.) -/
def bucket_no_overflow (interval : Interval) (timestamp : Int) : Prop :=
  in_int64 (interval.day * USECS_PER_DAY)
  ∧ in_int64 (interval.time + interval.day * USECS_PER_DAY)
  ∧ (Int.tmod timestamp (interval.time + interval.day * USECS_PER_DAY) < 0 →
      in_int64 (Int.tdiv timestamp (interval.time + interval.day * USECS_PER_DAY)
        * (interval.time + interval.day * USECS_PER_DAY)
        - (interval.time + interval.day * USECS_PER_DAY)))

instance (interval : Interval) (timestamp : Int) :
    Decidable (bucket_no_overflow interval timestamp) := by
  unfold bucket_no_overflow; exact inferInstance

/-! ## `utils.c`: the memory estimate -/

/-- What the host answers to `estimate_effective_memory`: the system memory in
bytes, the text of a setting (`none` when it has none), and `parse_int` with
`GUC_UNIT_BLOCKS`, which answers the `int` number of blocks or fails. -/
structure MemoryHost where
  system_memory_bytes : Int
  GetConfigOption : String → Option String
  parse_int : String → Option Int

/-- The function `estimate_effective_memory`. -/
def estimate_effective_memory (host : MemoryHost) : Except UtilsError Int :=
  let sysmem_bytes := host.system_memory_bytes
  match host.GetConfigOption "shared_buffers" with
  | none => Except.error (UtilsError.missing_configuration "shared_buffers")
  | some val =>
    match host.parse_int val with
    | none => Except.error (UtilsError.could_not_parse "shared_buffers")
    | some shared_buffers =>
      match host.GetConfigOption "effective_cache_size" with
      | none => Except.error (UtilsError.missing_configuration "effective_cache_size")
      | some val =>
        match host.parse_int val with
        | none => Except.error (UtilsError.could_not_parse "effective_cache_size")
        | some effective_cache_size =>
          let memory_bytes :=
            Max (wrap64 (shared_buffers * 4)) (wrap64 (effective_cache_size * 2))
          let memory_bytes := wrap64 (memory_bytes * BLCKSZ)
          if memory_bytes > sysmem_bytes then Except.ok sysmem_bytes
          else Except.ok memory_bytes

/-- The estimate the comment above `estimate_effective_memory` documents: the
maximum of `effective_cache_size` and twice `shared_buffers`, in bytes, capped at
the system memory. -/
def documented_effective_memory (shared_buffers effective_cache_size sysmem_bytes : Int) : Int :=
  min sysmem_bytes (BLCKSZ * max effective_cache_size (2 * shared_buffers))

/-! ## Sample hosts -/

/-- A host with a transaction active and the marker table present, but no
extension in the catalog. -/
def host_without_extension : Host where
  IsTransactionState := true
  get_namespace_oid := fun _ => 2200
  get_relname_relid := fun _ _ => 16385
  get_extension_oid := fun _ => InvalidOid
  pg_extension := []
  load_file := fun _ => true
  null_arg_text := "(null)"

/-- A host in which every precondition holds, the version attribute of the
catalog record is null, and only the module of version `1.2.0` can be loaded. -/
def host_null_version : Host where
  IsTransactionState := true
  get_namespace_oid := fun _ => 2200
  get_relname_relid := fun _ _ => 16385
  get_extension_oid := fun _ => 16384
  pg_extension := [⟨"timescaledb", none⟩]
  load_file := fun s => s == "timescaledb-1.2.0"
  null_arg_text := "(null)"

/-- A version string of 88 characters. -/
def long_version : String :=
  "1.2.0-01234567890123456789012345678901234567890123456789012345678901234567890123456789ab"

/-- A host in which every precondition holds and the catalog holds the version
`long_version`. -/
def host_long_version : Host where
  IsTransactionState := true
  get_namespace_oid := fun _ => 2200
  get_relname_relid := fun _ _ => 16385
  get_extension_oid := fun _ => 16384
  pg_extension := [⟨"timescaledb", some long_version⟩]
  load_file := fun _ => true
  null_arg_text := "(null)"

/-- An attach outside the preload phase in which the override has the given value. -/
def late_attach (override : Option String) : AttachHost where
  process_shared_preload_libraries_in_progress := false
  GetConfigOptionByName := fun name =>
    if name = "timescaledb.allow_install_without_preload" then override
    else if name = "config_file" then some "/etc/postgresql/postgresql.conf"
    else none

/-- A registry in which other modules already hold a relcache callback and the
post-parse hook. -/
def busy_registry : Registry :=
  { relcache_callback_list := [RelcacheCallback.foreign 1]
    post_parse_analyze_hook := some (PostParseHook.foreign 7) }

/-- A host with a transaction active in which the schema `_timescaledb_cache`
does not exist: the namespace lookup answers `InvalidOid`, and no relation is
found in the namespace `InvalidOid`. -/
def host_without_schema : Host where
  IsTransactionState := true
  get_namespace_oid := fun _ => InvalidOid
  get_relname_relid := fun _ nsid => if nsid = InvalidOid then InvalidOid else 16385
  get_extension_oid := fun _ => 16384
  pg_extension := [⟨"timescaledb", some "1.2.0"⟩]
  load_file := fun _ => true
  null_arg_text := "(null)"

/-- A host with 16 GiB of memory, `shared_buffers` of 16384 blocks (128 MiB) and
`effective_cache_size` of 524288 blocks (4 GiB). -/
def sample_memory_host : MemoryHost where
  system_memory_bytes := 17179869184
  GetConfigOption := fun name =>
    if name = "shared_buffers" then some "16384"
    else if name = "effective_cache_size" then some "524288"
    else none
  parse_int := fun val =>
    if val = "16384" then some 16384
    else if val = "524288" then some 524288
    else none

/-! ## Lemmas on the activation gate -/

theorem extension_check_of_loaded (st : LoaderState) (h : Host) (hl : st.loaded = true) :
    extension_check st h = { error := none, state := st, trace := [] } := by
  simp [extension_check, hl]

theorem final_state_of_loaded (st : LoaderState) (hl : st.loaded = true) (hs : List Host) :
    final_state st hs = st := by
  induction hs with
  | nil => rfl
  | cons h hs ih => simp [final_state, extension_check_of_loaded st h hl, ih]

theorem run_of_loaded (st : LoaderState) (hl : st.loaded = true) (hs : List Host) :
    run st hs = hs.map (fun _ => { error := none, state := st, trace := [] }) := by
  induction hs with
  | nil => rfl
  | cons h hs ih => simp [run, extension_check_of_loaded st h hl, ih]

theorem load_calls_of_loaded (st : LoaderState) (hl : st.loaded = true) (hs : List Host) :
    load_calls (run st hs) = 0 := by
  rw [run_of_loaded st hl hs]
  induction hs with
  | nil => rfl
  | cons h hs ih =>
    simp only [load_calls, List.map_cons, List.sum_cons] at ih ⊢
    simp [load_count, ih]

theorem load_successes_of_loaded (st : LoaderState) (hl : st.loaded = true) (hs : List Host) :
    load_successes (run st hs) = 0 := by
  rw [run_of_loaded st hl hs]
  induction hs with
  | nil => rfl
  | cons h hs ih =>
    simp only [load_successes, List.map_cons] at ih ⊢
    simp [load_count, ih]

theorem load_failures_of_loaded (st : LoaderState) (hl : st.loaded = true) (hs : List Host) :
    load_failures (run st hs) = 0 := by
  rw [run_of_loaded st hl hs]
  induction hs with
  | nil => rfl
  | cons h hs ih =>
    simp only [load_failures, List.map_cons] at ih ⊢
    simp [ih]

theorem preconditions_iff (h : Host) :
    preconditions h = true ↔
      h.IsTransactionState = true ∧ proxy_table_exists h = true ∧ extension_exists h = true := by
  simp [preconditions, and_assoc]

/-- The gate when all preconditions hold: the outcome is that of `load_extension`,
and `loaded` is set exactly when it returned. -/
theorem extension_check_of_preconditions (st : LoaderState) (h : Host)
    (hl : st.loaded = false) (hp : preconditions h = true) :
    extension_check st h =
      { error := (load_extension st h).error
        state := { (load_extension st h).state with
                   loaded := (load_extension st h).error.isNone }
        trace := Call.IsTransactionState :: proxy_table_exists_trace h
                   ++ extension_exists_trace ++ (load_extension st h).trace } := by
  obtain ⟨h1, h2, h3⟩ := (preconditions_iff h).1 hp
  have hst : (load_extension st h).state.loaded = false := by
    simp only [load_extension, extension_version]
    split
    · split <;> simp [hl]
    · simp [hl]
  cases he : (load_extension st h).error with
  | none => simp [extension_check, hl, h1, h2, h3, he]
  | some e =>
    simp only [extension_check, hl, h1, h2, h3, he]
    simp
    cases hs : (load_extension st h).state
    simp_all

/-- The gate when a precondition fails: no error, the statics untouched, and
only the probes up to the first false one are called. -/
theorem extension_check_of_not_preconditions (st : LoaderState) (h : Host)
    (hl : st.loaded = false) (hp : preconditions h = false) :
    extension_check st h =
      { error := none
        state := st
        trace :=
          if h.IsTransactionState then
            if proxy_table_exists h then
              Call.IsTransactionState :: proxy_table_exists_trace h ++ extension_exists_trace
            else Call.IsTransactionState :: proxy_table_exists_trace h
          else [Call.IsTransactionState] } := by
  unfold preconditions at hp
  cases h1 : h.IsTransactionState <;> cases h2 : proxy_table_exists h <;>
    cases h3 : extension_exists h <;> simp_all [extension_check]

theorem load_count_extension_check (st : LoaderState) (h : Host) (hl : st.loaded = false) :
    load_count (extension_check st h).trace = if preconditions h then 1 else 0 := by
  cases hp : preconditions h
  · rw [extension_check_of_not_preconditions st h hl hp]
    cases h.IsTransactionState <;> cases proxy_table_exists h <;>
      simp [load_count, proxy_table_exists_trace, extension_exists_trace]
  · rw [extension_check_of_preconditions st h hl hp]
    simp [load_count, proxy_table_exists_trace, extension_exists_trace, load_extension]

theorem load_calls_cons (r : Ran) (rs : List Ran) :
    load_calls (r :: rs) = load_count r.trace + load_calls rs := by
  simp [load_calls]

theorem load_successes_cons (r : Ran) (rs : List Ran) :
    load_successes (r :: rs) =
      (if 0 < load_count r.trace ∧ r.error = none then 1 else 0) + load_successes rs := by
  unfold load_successes
  by_cases h1 : 0 < load_count r.trace <;> cases h2 : r.error <;>
    simp [List.filter_cons, h1, h2, Nat.add_comm]

theorem load_failures_cons (r : Ran) (rs : List Ran) :
    load_failures (r :: rs) = (if r.error = none then 0 else 1) + load_failures rs := by
  unfold load_failures
  cases h2 : r.error <;> simp [List.filter_cons, h2, Nat.add_comm]

/-- Accounting of a run: every invocation of `load_extension` either returned
(at most one does) or ended its event in an error. -/
theorem run_accounting (hs : List Host) : ∀ st : LoaderState,
    load_successes (run st hs) ≤ 1
    ∧ load_calls (run st hs) = load_successes (run st hs) + load_failures (run st hs) := by
  induction hs with
  | nil => intro st; simp [run, load_successes, load_calls, load_failures]
  | cons h hs ih =>
    intro st
    cases hl : st.loaded
    · -- not yet loaded
      simp only [run]
      rw [load_calls_cons, load_successes_cons, load_failures_cons,
        load_count_extension_check st h hl]
      cases hp : preconditions h
      · have hE := extension_check_of_not_preconditions st h hl hp
        have he : (extension_check st h).error = none := by rw [hE]
        have hs' : (extension_check st h).state = st := by rw [hE]
        rw [he, hs']
        have := ih st
        simp
        exact this
      · have hE := extension_check_of_preconditions st h hl hp
        have he : (extension_check st h).error = (load_extension st h).error := by rw [hE]
        rw [he]
        cases hle : (load_extension st h).error with
        | none =>
          have hld : (extension_check st h).state.loaded = true := by rw [hE]; simp [hle]
          rw [load_calls_of_loaded _ hld, load_successes_of_loaded _ hld,
            load_failures_of_loaded _ hld]
          simp
        | some e =>
          have := ih (extension_check st h).state
          simp
          omega
    · rw [load_calls_of_loaded st hl, load_successes_of_loaded st hl,
        load_failures_of_loaded st hl]
      simp

/-! ## The activation gate: claims -/

/-- C1. Idempotence after activation: from a state whose `loaded` flag is true,
any sequence of trigger events, whatever the host answers, leaves `loaded` true
and never invokes `load_extension`; hence a run made of one activating event
(flag false, the three preconditions true, `load_extension` returning) followed
by any number of further events invokes `load_extension` exactly once. -/
theorem extension_check_idempotent_after_activation (st : LoaderState)
    (hl : st.loaded = true) (events : List Host) :
    (final_state st events).loaded = true
    ∧ load_calls (run st events) = 0
    ∧ ∀ (st0 : LoaderState) (h0 : Host), st0.loaded = false → preconditions h0 = true →
        (load_extension st0 h0).error = none →
        (final_state st0 (h0 :: events)).loaded = true
        ∧ load_calls (run st0 (h0 :: events)) = 1 := by
  refine ⟨?_, load_calls_of_loaded st hl events, ?_⟩
  · rw [final_state_of_loaded st hl events]; exact hl
  · intro st0 h0 hl0 hp0 hle
    have hE := extension_check_of_preconditions st0 h0 hl0 hp0
    have hld : (extension_check st0 h0).state.loaded = true := by rw [hE]; simp [hle]
    constructor
    · simp only [final_state]
      rw [final_state_of_loaded _ hld events]; exact hld
    · simp only [run]
      rw [load_calls_cons, load_calls_of_loaded _ hld events,
        load_count_extension_check st0 h0 hl0, hp0]
      simp

/-- C1 at a concrete input: an activated process receiving three events. -/
theorem extension_check_idempotent_after_activation_witness :
    (final_state ⟨true, some "1.2.0"⟩
        [sample_host true, sample_host false, sample_host true]).loaded = true
    ∧ load_calls (run ⟨true, some "1.2.0"⟩
        [sample_host true, sample_host false, sample_host true]) = 0
    ∧ ∀ (st0 : LoaderState) (h0 : Host), st0.loaded = false → preconditions h0 = true →
        (load_extension st0 h0).error = none →
        (final_state st0
          (h0 :: [sample_host true, sample_host false, sample_host true])).loaded = true
        ∧ load_calls (run st0
          (h0 :: [sample_host true, sample_host false, sample_host true])) = 1 :=
  extension_check_idempotent_after_activation ⟨true, some "1.2.0"⟩ rfl
    [sample_host true, sample_host false, sample_host true]

/-- C2. Successful activation step: with `loaded` false, a transaction active,
the marker table present, the extension present in the catalog and
`load_extension` returning without error, `extension_check` returns without
error, invokes `load_extension` exactly once and leaves `loaded` true. -/
theorem extension_check_activates (st : LoaderState) (h : Host)
    (hl : st.loaded = false) (htx : h.IsTransactionState = true)
    (hproxy : proxy_table_exists h = true) (hext : extension_exists h = true)
    (hload : (load_extension st h).error = none) :
    (extension_check st h).error = none
    ∧ load_count (extension_check st h).trace = 1
    ∧ (extension_check st h).state.loaded = true := by
  have hp : preconditions h = true := (preconditions_iff h).2 ⟨htx, hproxy, hext⟩
  have hE := extension_check_of_preconditions st h hl hp
  refine ⟨?_, ?_, ?_⟩
  · rw [hE]; exact hload
  · rw [load_count_extension_check st h hl, hp]; simp
  · rw [hE]; simp [hload]

/-- C2 at a concrete input: a fresh process, every precondition true, the module
loadable. -/
theorem extension_check_activates_witness :
    (extension_check LoaderState.initial (sample_host true)).error = none
    ∧ load_count (extension_check LoaderState.initial (sample_host true)).trace = 1
    ∧ (extension_check LoaderState.initial (sample_host true)).state.loaded = true :=
  extension_check_activates LoaderState.initial (sample_host true) rfl rfl
    (by decide) (by decide) (by decide)

/-- C3 as stated fails in two places.  First, when the transaction is active and
the marker table exists but the catalog has no extension record, a precondition
is unmet and yet the event performs a catalog call: the existence lookup
`get_extension_oid`.  Second, the outcome of an event does not depend only on
`loaded` and the host answers at that event: two states with `loaded` false that
differ in the version an earlier call left behind end the same event with
different flags. -/
theorem extension_check_preconditions_unmet_counterexample :
    (LoaderState.initial.loaded = false
      ∧ preconditions host_without_extension = false
      ∧ Call.get_extension_oid "timescaledb"
          ∈ (extension_check LoaderState.initial host_without_extension).trace)
    ∧ ((extension_check ⟨false, none⟩ host_null_version).state.loaded = false
      ∧ (extension_check ⟨false, some "1.2.0"⟩ host_null_version).state.loaded = true) := by
  decide

/-- C3, amended. With `loaded` false and at least one of the three preconditions
false, `extension_check` returns without error, leaves the statics (so `loaded`)
unchanged, and performs no version lookup, no module load and no call of
`load_extension`; the catalog existence lookup is made exactly when the
transaction is active and the marker table exists.  At the following event the
three preconditions are evaluated again: `load_extension` is entered exactly
when they all hold then. -/
theorem extension_check_preconditions_unmet (st : LoaderState) (h : Host)
    (hl : st.loaded = false) (hp : preconditions h = false) :
    (extension_check st h).error = none
    ∧ (extension_check st h).state = st
    ∧ Call.extension_version ∉ (extension_check st h).trace
    ∧ (∀ s, Call.load_file s ∉ (extension_check st h).trace)
    ∧ Call.load_extension ∉ (extension_check st h).trace
    ∧ (Call.get_extension_oid EXTENSION_NAME ∈ (extension_check st h).trace ↔
        (h.IsTransactionState = true ∧ proxy_table_exists h = true))
    ∧ ∀ h1 : Host, (Call.load_extension ∈ (extension_check (extension_check st h).state h1).trace
        ↔ preconditions h1 = true) := by
  have hE := extension_check_of_not_preconditions st h hl hp
  have hst : (extension_check st h).state = st := by rw [hE]
  refine ⟨by rw [hE], hst, ?_, ?_, ?_, ?_, ?_⟩
  · rw [hE]
    cases h.IsTransactionState <;> cases proxy_table_exists h <;>
      simp [proxy_table_exists_trace, extension_exists_trace]
  · intro s
    rw [hE]
    cases h.IsTransactionState <;> cases proxy_table_exists h <;>
      simp [proxy_table_exists_trace, extension_exists_trace]
  · rw [hE]
    cases h.IsTransactionState <;> cases proxy_table_exists h <;>
      simp [proxy_table_exists_trace, extension_exists_trace]
  · rw [hE]
    cases h.IsTransactionState <;> cases proxy_table_exists h <;>
      simp [proxy_table_exists_trace, extension_exists_trace]
  · intro h1
    rw [hst]
    have hc := load_count_extension_check st h1 hl
    unfold load_count at hc
    cases hp1 : preconditions h1
    · rw [hp1] at hc
      simp only [Bool.false_eq_true, if_false] at hc
      simp [List.count_eq_zero.1 hc]
    · rw [hp1] at hc
      simp only [if_true] at hc
      simp only [iff_true]
      exact List.count_pos_iff.1 (by omega)

/-- C3 (amended) at a concrete input: no transaction is active. -/
theorem extension_check_preconditions_unmet_witness :
    (extension_check LoaderState.initial
        { sample_host true with IsTransactionState := false }).error = none
    ∧ (extension_check LoaderState.initial
        { sample_host true with IsTransactionState := false }).state = LoaderState.initial
    ∧ Call.extension_version ∉ (extension_check LoaderState.initial
        { sample_host true with IsTransactionState := false }).trace
    ∧ (∀ s, Call.load_file s ∉ (extension_check LoaderState.initial
        { sample_host true with IsTransactionState := false }).trace)
    ∧ Call.load_extension ∉ (extension_check LoaderState.initial
        { sample_host true with IsTransactionState := false }).trace
    ∧ (Call.get_extension_oid EXTENSION_NAME ∈ (extension_check LoaderState.initial
        { sample_host true with IsTransactionState := false }).trace ↔
        (({ sample_host true with IsTransactionState := false } : Host).IsTransactionState = true
          ∧ proxy_table_exists { sample_host true with IsTransactionState := false } = true))
    ∧ ∀ h1 : Host, (Call.load_extension ∈ (extension_check (extension_check LoaderState.initial
        { sample_host true with IsTransactionState := false }).state h1).trace
        ↔ preconditions h1 = true) :=
  extension_check_preconditions_unmet LoaderState.initial
    { sample_host true with IsTransactionState := false } rfl (by decide)

/-- C4. Load-error atomicity: with `loaded` false and the three preconditions
true, an error raised by `load_extension` leaves `extension_check` with that same
error and with `loaded` still false, so that the next trigger event whose
preconditions hold invokes `load_extension` again (once). -/
theorem extension_check_load_error (st : LoaderState) (h : Host) (e : PgError)
    (hl : st.loaded = false) (hp : preconditions h = true)
    (he : (load_extension st h).error = some e) :
    (extension_check st h).error = some e
    ∧ (extension_check st h).state.loaded = false
    ∧ ∀ h1 : Host, preconditions h1 = true →
        load_count (extension_check (extension_check st h).state h1).trace = 1 := by
  have hE := extension_check_of_preconditions st h hl hp
  have hst : (extension_check st h).state.loaded = false := by rw [hE]; simp [he]
  refine ⟨by rw [hE]; exact he, hst, ?_⟩
  intro h1 hp1
  rw [load_count_extension_check _ h1 hst, hp1]
  simp

/-- C4 at a concrete input: a fresh process whose module cannot be loaded. -/
theorem extension_check_load_error_witness :
    (extension_check LoaderState.initial (sample_host false)).error
        = some (PgError.could_not_load_library "timescaledb-1.2.0")
    ∧ (extension_check LoaderState.initial (sample_host false)).state.loaded = false
    ∧ ∀ h1 : Host, preconditions h1 = true →
        load_count (extension_check
          (extension_check LoaderState.initial (sample_host false)).state h1).trace = 1 :=
  extension_check_load_error LoaderState.initial (sample_host false)
    (PgError.could_not_load_library "timescaledb-1.2.0") rfl (by decide) (by decide)

/-- C5 as stated fails: two trigger events at which the preconditions hold and
the module cannot be loaded run the version lookup and the module load twice. -/
theorem expensive_path_at_most_once_counterexample :
    (run LoaderState.initial [sample_host false, sample_host false]).map (fun r => r.trace)
        = [[Call.IsTransactionState, Call.get_namespace_oid "_timescaledb_cache",
            Call.get_relname_relid "cache_inval_extension" 2200,
            Call.get_extension_oid "timescaledb", Call.load_extension,
            Call.extension_version, Call.load_file "timescaledb-1.2.0"],
           [Call.IsTransactionState, Call.get_namespace_oid "_timescaledb_cache",
            Call.get_relname_relid "cache_inval_extension" 2200,
            Call.get_extension_oid "timescaledb", Call.load_extension,
            Call.extension_version, Call.load_file "timescaledb-1.2.0"]]
    ∧ ¬ (load_calls (run LoaderState.initial [sample_host false, sample_host false]) ≤ 1) := by
  decide

/-- C5, amended. Over every sequence of trigger events delivered to one process,
from any state and whatever the host answers, the expensive path (one version
lookup and one module load per invocation of `load_extension`) completes at most
once, and every other execution of it is an attempt that ended its event in an
error; in particular it is executed at most once when no attempt fails. -/
theorem expensive_path_at_most_once_successfully (st : LoaderState) (events : List Host) :
    load_successes (run st events) ≤ 1
    ∧ load_calls (run st events)
        = load_successes (run st events) + load_failures (run st events)
    ∧ (load_failures (run st events) = 0 → load_calls (run st events) ≤ 1) := by
  obtain ⟨h1, h2⟩ := run_accounting events st
  exact ⟨h1, h2, fun h0 => by omega⟩

/-! ## The dynamic loader and the version resolver: claims -/

theorem snprintf_of_fits (a b : String) (size : Nat)
    (hfit : a.length + 1 + b.length ≤ size - 1) : snprintf size a b = a ++ "-" ++ b := by
  unfold snprintf
  have hlen : (a ++ "-" ++ b).data.length ≤ size - 1 := by
    have h1 : (a ++ "-" ++ b).data.length = (a ++ "-" ++ b).length := rfl
    rw [h1, String.length_append, String.length_append]
    have h2 : ("-" : String).length = 1 := rfl
    omega
  rw [List.take_of_length_le hlen]

theorem length_snprintf (a b : String) (size : Nat) :
    (snprintf size a b).length = min (size - 1) (a.length + 1 + b.length) := by
  unfold snprintf
  have h2 : ("-" : String).length = 1 := rfl
  have h1 : (a ++ "-" ++ b).data.length = a.length + 1 + b.length := by
    have h3 : (a ++ "-" ++ b).data.length = (a ++ "-" ++ b).length := rfl
    rw [h3, String.length_append, String.length_append, h2]
  show ((a ++ "-" ++ b).data.take (size - 1)).length = _
  rw [List.length_take, h1]

/-- C6 as stated fails: for a version of 88 characters resolved from the
catalog, the identifier handed to `load_file` is not the concatenation
`timescaledb-` followed by the version; its last character is cut off. -/
theorem load_extension_soname_counterexample :
    (extension_version LoaderState.initial host_long_version).1 = some long_version
    ∧ (load_extension LoaderState.initial host_long_version).trace
        = [Call.load_extension, Call.extension_version,
           Call.load_file "timescaledb-1.2.0-01234567890123456789012345678901234567890123456789012345678901234567890123456789a"]
    ∧ Call.load_file ("timescaledb" ++ "-" ++ long_version)
        ∉ (load_extension LoaderState.initial host_long_version).trace := by
  decide

/-- C6, amended. For every version string `v` the resolver returns,
`load_extension` calls `load_file` once, with the first 99 characters of
`timescaledb-v`: the whole concatenation, verbatim, when `v` has at most 87
characters, and a proper prefix of it (99 characters) when `v` is longer. -/
theorem load_extension_soname (st : LoaderState) (h : Host) (v : String)
    (hv : (extension_version st h).1 = some v) :
    (load_extension st h).trace
        = [Call.load_extension, Call.extension_version,
           Call.load_file ⟨("timescaledb" ++ "-" ++ v).data.take 99⟩]
    ∧ (v.length ≤ 87 →
        (load_extension st h).trace
          = [Call.load_extension, Call.extension_version,
             Call.load_file ("timescaledb" ++ "-" ++ v)])
    ∧ (87 < v.length → (soname st h).length = 99) := by
  have hs : soname st h = snprintf 100 "timescaledb" v := by
    simp [soname, hv, version_text, EXTENSION_NAME]
  have hname : ("timescaledb" : String).length = 11 := rfl
  refine ⟨?_, ?_, ?_⟩
  · simp only [load_extension, hs]
    rfl
  · intro hle
    simp only [load_extension, hs]
    rw [snprintf_of_fits "timescaledb" v 100 (by rw [hname]; omega)]
  · intro hlt
    rw [hs, length_snprintf, hname]
    omega

/-- C6 (amended) at the input of the specification: version `1.2.0`. -/
theorem load_extension_soname_witness :
    (load_extension LoaderState.initial (sample_host true)).trace
        = [Call.load_extension, Call.extension_version,
           Call.load_file ⟨("timescaledb" ++ "-" ++ "1.2.0").data.take 99⟩]
    ∧ (("1.2.0" : String).length ≤ 87 →
        (load_extension LoaderState.initial (sample_host true)).trace
          = [Call.load_extension, Call.extension_version,
             Call.load_file ("timescaledb" ++ "-" ++ "1.2.0")])
    ∧ (87 < ("1.2.0" : String).length →
        (soname LoaderState.initial (sample_host true)).length = 99) :=
  load_extension_soname LoaderState.initial (sample_host true) "1.2.0" (by decide)

/-- C7, the code at the failing input. In a fresh process whose catalog record
has a null version (or is missing), the resolver returns none, and
`load_extension` still calls `load_file`, with the identifier formatted from the
null pointer, and returns without error when the host loads that file. -/
theorem load_extension_unresolved_version :
    (extension_version LoaderState.initial { host_null_version with load_file := fun _ => true }).1
        = none
    ∧ load_extension LoaderState.initial { host_null_version with load_file := fun _ => true }
        = { error := none
            state := LoaderState.initial
            trace := [Call.load_extension, Call.extension_version,
                      Call.load_file "timescaledb-(null)"] }
    ∧ (extension_version LoaderState.initial host_without_extension).1 = none
    ∧ (load_extension LoaderState.initial host_without_extension).trace
        = [Call.load_extension, Call.extension_version, Call.load_file "timescaledb-(null)"]
    ∧ (extension_check LoaderState.initial
        { host_null_version with load_file := fun _ => true }).state.loaded = true := by
  decide

/-- C8, the code at the failing input. A first call resolves version `1.2.0`
and leaves it in the static `sql_version`; a later call in the same process,
made when the catalog has no matching record or a record with a null version,
returns that earlier version instead of none, although the same catalog gives
none in a fresh process. -/
theorem extension_version_stale :
    extension_version LoaderState.initial (sample_host false)
        = (some "1.2.0", ⟨false, some "1.2.0"⟩)
    ∧ (extension_version (extension_version LoaderState.initial (sample_host false)).2
        host_without_extension).1 = some "1.2.0"
    ∧ (extension_version (extension_version LoaderState.initial (sample_host false)).2
        host_null_version).1 = some "1.2.0"
    ∧ (extension_version LoaderState.initial host_without_extension).1 = none
    ∧ (extension_version LoaderState.initial host_null_version).1 = none := by
  decide

/-! ## The bootstrap registrar: claims -/

theorem char_eq_of_toNat_eq (a b : Char) (h : a.toNat = b.toNat) : a = b := by
  have := congrArg Char.ofNat h
  simpa [Char.ofNat_toNat] using this

theorem string_mk_eq_on (l : List Char) : (String.mk l = "on") ↔ l = ['o', 'n'] := by
  constructor
  · intro h; exact congrArg String.data h
  · intro h; rw [h]

theorem strncmp_chars_on (l : List Char) :
    (l.length = 2 ∧ strncmp_chars l ['o', 'n'] 2 = 0) ↔ l = ['o', 'n'] := by
  constructor
  · rintro ⟨hlen, hcmp⟩
    match l, hlen with
    | [a, b], _ =>
      simp only [strncmp_chars] at hcmp
      by_cases ha : a = 'o'
      · by_cases hb : b = 'n'
        · rw [ha, hb]
        · rw [if_pos ha, if_neg hb] at hcmp
          exact absurd (char_eq_of_toNat_eq b 'n' (by omega)) hb
      · rw [if_neg ha] at hcmp
        exact absurd (char_eq_of_toNat_eq a 'o' (by omega)) ha
  · intro h
    rw [h]
    decide

/-- The test `_PG_init` applies to the override, `strlen(s) != 2 ||
strncmp(s, "on", 2) != 0`, rejects every string but `on`. -/
theorem override_rejected_iff (s : String) :
    (strlen s != 2 || strncmp s "on" 2 != 0) = true ↔ s ≠ "on" := by
  obtain ⟨l⟩ := s
  have hdata : ("on" : String).data = ['o', 'n'] := rfl
  rw [ne_eq, string_mk_eq_on, ← strncmp_chars_on]
  simp only [strlen, strncmp, String.length, hdata, Bool.or_eq_true, bne_iff_ne, ne_eq]
  tauto

theorem PG_init_of_preload (env : AttachHost) (reg : Registry)
    (hpre : env.process_shared_preload_libraries_in_progress = true) :
    _PG_init env reg = (none, register_triggers reg) := by
  simp [_PG_init, hpre]

theorem PG_init_of_allowed (env : AttachHost) (reg : Registry)
    (hon : env.GetConfigOptionByName "timescaledb.allow_install_without_preload" = some "on") :
    _PG_init env reg = (none, register_triggers reg) := by
  unfold _PG_init
  split
  · rw [hon]
    have hrej : (strlen "on" != 2 || strncmp "on" "on" 2 != 0) = false := by decide
    simp only [hrej]
    rfl
  · rfl

theorem PG_init_of_rejected (env : AttachHost) (reg : Registry)
    (hpre : env.process_shared_preload_libraries_in_progress = false)
    (hoff : env.GetConfigOptionByName "timescaledb.allow_install_without_preload" ≠ some "on") :
    _PG_init env reg = (some (not_preloaded_error env), reg) := by
  unfold _PG_init
  simp only [hpre, Bool.not_false, if_true]
  cases hget : env.GetConfigOptionByName "timescaledb.allow_install_without_preload" with
  | none => rfl
  | some s =>
    have hs : s ≠ "on" := by
      intro heq
      apply hoff
      rw [hget, heq]
    have hrej := (override_rejected_iff s).2 hs
    simp only [hrej, if_true]

theorem foreign_hook_not_mem_extension_check (st : LoaderState) (h : Host)
    (id pstate query : Nat) :
    Call.foreign_hook id pstate query ∉ (extension_check st h).trace := by
  cases hl : st.loaded
  · cases hp : preconditions h
    · rw [extension_check_of_not_preconditions st h hl hp]
      cases h.IsTransactionState <;> cases proxy_table_exists h <;>
        simp [proxy_table_exists_trace, extension_exists_trace]
    · rw [extension_check_of_preconditions st h hl hp]
      simp [proxy_table_exists_trace, extension_exists_trace, load_extension]
  · rw [extension_check_of_loaded st h hl]
    simp

/-- C9. Fatal on misconfiguration: outside the preload phase, `_PG_init` raises
an error and leaves both host slots as they were (neither trigger registered)
exactly when the override `timescaledb.allow_install_without_preload` is absent
or is any string other than `on`; when preloading is in progress, or the
override is exactly `on`, it raises no error and registers both triggers. -/
theorem PG_init_fatal_on_misconfiguration (env : AttachHost) (reg : Registry) :
    (env.process_shared_preload_libraries_in_progress = false →
      (((_PG_init env reg).1.isSome = true ∧ (_PG_init env reg).2 = reg) ↔
        env.GetConfigOptionByName "timescaledb.allow_install_without_preload" ≠ some "on"))
    ∧ ((env.process_shared_preload_libraries_in_progress = true
          ∨ env.GetConfigOptionByName "timescaledb.allow_install_without_preload" = some "on") →
        (_PG_init env reg).1 = none
        ∧ (_PG_init env reg).2.relcache_callback_list
            = reg.relcache_callback_list ++ [RelcacheCallback.inval_cache_callback]
        ∧ (_PG_init env reg).2.post_parse_analyze_hook
            = some PostParseHook.post_analyze_hook) := by
  constructor
  · intro hpre
    constructor
    · rintro ⟨herr, -⟩ hon
      rw [PG_init_of_allowed env reg hon] at herr
      simp at herr
    · intro hoff
      rw [PG_init_of_rejected env reg hpre hoff]
      simp
  · intro hok
    have hE : _PG_init env reg = (none, register_triggers reg) := by
      rcases hok with hpre | hon
      · exact PG_init_of_preload env reg hpre
      · exact PG_init_of_allowed env reg hon
    rw [hE]
    simp [register_triggers, CacheRegisterRelcacheCallback]

/-- C9 at concrete inputs: the values `ON`, `true`, `on ` and `o` of the
override, and its absence, abort the attach with the registry untouched; the
value `on` registers both triggers. -/
theorem PG_init_fatal_on_misconfiguration_witness :
    (_PG_init (late_attach (some "ON")) busy_registry
        = (some (PgError.library_not_preloaded "/etc/postgresql/postgresql.conf"), busy_registry)
      ∧ (_PG_init (late_attach (some "true")) busy_registry).2 = busy_registry
      ∧ (_PG_init (late_attach (some "on ")) busy_registry).2 = busy_registry
      ∧ (_PG_init (late_attach (some "o")) busy_registry).2 = busy_registry
      ∧ (_PG_init (late_attach none) busy_registry).2 = busy_registry)
    ∧ ((_PG_init (late_attach (some "on")) busy_registry).1 = none
        ∧ (_PG_init (late_attach (some "on")) busy_registry).2.relcache_callback_list
            = busy_registry.relcache_callback_list ++ [RelcacheCallback.inval_cache_callback]
        ∧ (_PG_init (late_attach (some "on")) busy_registry).2.post_parse_analyze_hook
            = some PostParseHook.post_analyze_hook) :=
  ⟨by decide,
   (PG_init_fatal_on_misconfiguration (late_attach (some "on")) busy_registry).2
     (Or.inr (by decide))⟩

/-- C10 as stated fails: a handler that sits in the post-parse slot when
`_PG_init` succeeds is invoked by a post-parse event before the attach and by
none after it; the slot then holds `post_analyze_hook` alone. -/
theorem PG_init_handler_chaining_counterexample :
    (post_parse_event busy_registry 11 12 LoaderState.initial (sample_host true)).trace
        = [Call.foreign_hook 7 11 12]
    ∧ _PG_init (late_attach (some "on")) busy_registry
        = (none, { relcache_callback_list :=
                     [RelcacheCallback.foreign 1, RelcacheCallback.inval_cache_callback]
                   post_parse_analyze_hook := some PostParseHook.post_analyze_hook })
    ∧ Call.foreign_hook 7 11 12 ∉
        (post_parse_event (_PG_init (late_attach (some "on")) busy_registry).2 11 12
          LoaderState.initial (sample_host true)).trace := by
  decide

/-- C10, amended. After a successful `_PG_init` the post-parse slot holds
`post_analyze_hook` whatever it held before; a later post-parse event runs
`extension_check` and invokes no handler of another module.  Registration is
additive for the relcache callbacks only: those registered earlier stay in the
list, before `inval_cache_callback`. -/
theorem PG_init_overwrites_post_parse_hook (env : AttachHost) (reg : Registry)
    (hok : (_PG_init env reg).1 = none) :
    (_PG_init env reg).2.post_parse_analyze_hook = some PostParseHook.post_analyze_hook
    ∧ (∀ (pstate query : Nat) (st : LoaderState) (h : Host),
        post_parse_event (_PG_init env reg).2 pstate query st h = extension_check st h
        ∧ ∀ id : Nat, Call.foreign_hook id pstate query ∉
            (post_parse_event (_PG_init env reg).2 pstate query st h).trace)
    ∧ (_PG_init env reg).2.relcache_callback_list
        = reg.relcache_callback_list ++ [RelcacheCallback.inval_cache_callback] := by
  have hE : _PG_init env reg = (none, register_triggers reg) := by
    cases hpre : env.process_shared_preload_libraries_in_progress
    · by_cases hon :
        env.GetConfigOptionByName "timescaledb.allow_install_without_preload" = some "on"
      · exact PG_init_of_allowed env reg hon
      · rw [PG_init_of_rejected env reg hpre hon] at hok
        simp at hok
    · exact PG_init_of_preload env reg hpre
  rw [hE]
  refine ⟨rfl, ?_, rfl⟩
  intro pstate query st h
  have hpp : post_parse_event (register_triggers reg) pstate query st h
      = extension_check st h := rfl
  refine ⟨hpp, ?_⟩
  intro id
  rw [hpp]
  exact foreign_hook_not_mem_extension_check st h id pstate query

/-- C10 (amended) at a concrete input: an attach with the override `on` over a
registry whose post-parse slot is held by another module. -/
theorem PG_init_overwrites_post_parse_hook_witness :
    (_PG_init (late_attach (some "on")) busy_registry).2.post_parse_analyze_hook
        = some PostParseHook.post_analyze_hook
    ∧ (∀ (pstate query : Nat) (st : LoaderState) (h : Host),
        post_parse_event (_PG_init (late_attach (some "on")) busy_registry).2 pstate query st h
          = extension_check st h
        ∧ ∀ id : Nat, Call.foreign_hook id pstate query ∉
            (post_parse_event (_PG_init (late_attach (some "on")) busy_registry).2
              pstate query st h).trace)
    ∧ (_PG_init (late_attach (some "on")) busy_registry).2.relcache_callback_list
        = busy_registry.relcache_callback_list ++ [RelcacheCallback.inval_cache_callback] :=
  PG_init_overwrites_post_parse_hook (late_attach (some "on")) busy_registry (by decide)

/-! ## The activation gate and its triggers: further claims -/

/-- C11. No-transaction guard: whatever the state (loaded or not) and whatever
the marker and catalog answers, `extension_check` run while no transaction is
active returns without error, leaves the statics (so `loaded`) unchanged, and
makes neither of the two marker lookups, nor the catalog existence lookup, nor
the version lookup, nor a module load. -/
theorem extension_check_no_transaction (st : LoaderState) (h : Host)
    (htx : h.IsTransactionState = false) :
    (extension_check st h).error = none
    ∧ (extension_check st h).state = st
    ∧ (∀ nspname, Call.get_namespace_oid nspname ∉ (extension_check st h).trace)
    ∧ (∀ relname nsid, Call.get_relname_relid relname nsid ∉ (extension_check st h).trace)
    ∧ (∀ extname, Call.get_extension_oid extname ∉ (extension_check st h).trace)
    ∧ Call.extension_version ∉ (extension_check st h).trace
    ∧ Call.load_extension ∉ (extension_check st h).trace
    ∧ (∀ s, Call.load_file s ∉ (extension_check st h).trace) := by
  cases hl : st.loaded
  · have hE : extension_check st h
        = { error := none, state := st, trace := [Call.IsTransactionState] } := by
      simp [extension_check, hl, htx]
    rw [hE]
    simp
  · rw [extension_check_of_loaded st h hl]
    simp

/-- C11 at concrete inputs: a fresh process outside a transaction, with the
marker table and the extension present. -/
theorem extension_check_no_transaction_witness :
    (extension_check LoaderState.initial
        { sample_host true with IsTransactionState := false }).error = none
    ∧ (extension_check LoaderState.initial
        { sample_host true with IsTransactionState := false }).state = LoaderState.initial
    ∧ (∀ nspname, Call.get_namespace_oid nspname ∉ (extension_check LoaderState.initial
        { sample_host true with IsTransactionState := false }).trace)
    ∧ (∀ relname nsid, Call.get_relname_relid relname nsid ∉
        (extension_check LoaderState.initial
          { sample_host true with IsTransactionState := false }).trace)
    ∧ (∀ extname, Call.get_extension_oid extname ∉ (extension_check LoaderState.initial
        { sample_host true with IsTransactionState := false }).trace)
    ∧ Call.extension_version ∉ (extension_check LoaderState.initial
        { sample_host true with IsTransactionState := false }).trace
    ∧ Call.load_extension ∉ (extension_check LoaderState.initial
        { sample_host true with IsTransactionState := false }).trace
    ∧ (∀ s, Call.load_file s ∉ (extension_check LoaderState.initial
        { sample_host true with IsTransactionState := false }).trace) :=
  extension_check_no_transaction LoaderState.initial
    { sample_host true with IsTransactionState := false } rfl

/-- C12. Marker-absent short-circuit: with `loaded` false and a transaction
active, when the lookup of `cache_inval_extension` in the namespace answered for
`_timescaledb_cache` finds no relation (which is also what happens when the
schema does not exist and the host finds nothing in the namespace `InvalidOid`),
`extension_check` never calls the catalog existence lookup, never calls
`load_extension`, the version lookup or `load_file`, and returns without error
with `loaded` still false. -/
theorem extension_check_marker_absent (st : LoaderState) (h : Host)
    (hl : st.loaded = false) (htx : h.IsTransactionState = true)
    (hmarker : h.get_relname_relid EXTENSION_PROXY_TABLE
      (h.get_namespace_oid CACHE_SCHEMA_NAME) = InvalidOid) :
    (extension_check st h).error = none
    ∧ (extension_check st h).state.loaded = false
    ∧ (∀ extname, ((extension_check st h).trace.count (Call.get_extension_oid extname)) = 0)
    ∧ load_count (extension_check st h).trace = 0
    ∧ Call.extension_version ∉ (extension_check st h).trace
    ∧ (∀ s, Call.load_file s ∉ (extension_check st h).trace)
    ∧ (extension_check st h).trace
        = [Call.IsTransactionState, Call.get_namespace_oid CACHE_SCHEMA_NAME,
           Call.get_relname_relid EXTENSION_PROXY_TABLE
             (h.get_namespace_oid CACHE_SCHEMA_NAME)] := by
  have hproxy : proxy_table_exists h = false := by
    simp [proxy_table_exists, hmarker, OidIsValid]
  have hE : extension_check st h
      = { error := none, state := st
          trace := [Call.IsTransactionState, Call.get_namespace_oid CACHE_SCHEMA_NAME,
            Call.get_relname_relid EXTENSION_PROXY_TABLE
              (h.get_namespace_oid CACHE_SCHEMA_NAME)] } := by
    simp [extension_check, hl, htx, hproxy, proxy_table_exists_trace]
  rw [hE]
  simp [hl, load_count]

/-- C12 at a concrete input: a fresh process in a database where the schema
`_timescaledb_cache` itself does not exist, while the catalog has the extension. -/
theorem extension_check_marker_absent_witness :
    (extension_check LoaderState.initial host_without_schema).error = none
    ∧ (extension_check LoaderState.initial host_without_schema).state.loaded = false
    ∧ (∀ extname, ((extension_check LoaderState.initial host_without_schema).trace.count
        (Call.get_extension_oid extname)) = 0)
    ∧ load_count (extension_check LoaderState.initial host_without_schema).trace = 0
    ∧ Call.extension_version ∉ (extension_check LoaderState.initial host_without_schema).trace
    ∧ (∀ s, Call.load_file s ∉ (extension_check LoaderState.initial host_without_schema).trace)
    ∧ (extension_check LoaderState.initial host_without_schema).trace
        = [Call.IsTransactionState, Call.get_namespace_oid CACHE_SCHEMA_NAME,
           Call.get_relname_relid EXTENSION_PROXY_TABLE
             (host_without_schema.get_namespace_oid CACHE_SCHEMA_NAME)] :=
  extension_check_marker_absent LoaderState.initial host_without_schema rfl rfl (by decide)

/-- C13. Order independence of the two trigger sources: with any arguments,
`inval_cache_callback` and `post_analyze_hook` do what `extension_check` does;
hence two trigger events in a row, the first seeing the host answers `h1` and
the second `h2`, give the same results whether the invalidation trigger fires
first and the parse trigger second or the other way round: the same `loaded`
flag at the end and the same module identifiers handed to `load_file`. -/
theorem trigger_order_independence (st : LoaderState) (h1 h2 : Host)
    (arg : Datum) (relid : Oid) (pstate query : Nat) :
    inval_cache_callback arg relid st h1 = extension_check st h1
    ∧ post_analyze_hook pstate query st h1 = extension_check st h1
    ∧ fire_two (Trigger.invalidation arg relid) (Trigger.parse pstate query) st h1 h2
        = fire_two (Trigger.parse pstate query) (Trigger.invalidation arg relid) st h1 h2
    ∧ (fire_two (Trigger.invalidation arg relid) (Trigger.parse pstate query)
          st h1 h2).2.state.loaded
        = (fire_two (Trigger.parse pstate query) (Trigger.invalidation arg relid)
            st h1 h2).2.state.loaded
    ∧ sonames_loaded
          ((fire_two (Trigger.invalidation arg relid) (Trigger.parse pstate query)
              st h1 h2).1.trace
            ++ (fire_two (Trigger.invalidation arg relid) (Trigger.parse pstate query)
              st h1 h2).2.trace)
        = sonames_loaded
          ((fire_two (Trigger.parse pstate query) (Trigger.invalidation arg relid)
              st h1 h2).1.trace
            ++ (fire_two (Trigger.parse pstate query) (Trigger.invalidation arg relid)
              st h1 h2).2.trace) := by
  have hswap :
      fire_two (Trigger.invalidation arg relid) (Trigger.parse pstate query) st h1 h2
        = fire_two (Trigger.parse pstate query) (Trigger.invalidation arg relid) st h1 h2 :=
    rfl
  refine ⟨rfl, rfl, hswap, ?_, ?_⟩
  · rw [hswap]
  · rw [hswap]

/-- C13 at a concrete input: from a fresh process with every precondition true
at both events, either order of the two triggers ends with `loaded` true and
hands `timescaledb-1.2.0` to `load_file`, once. -/
theorem trigger_order_independence_witness :
    ((fire_two (Trigger.invalidation 0 16385) (Trigger.parse 11 12) LoaderState.initial
        (sample_host true) (sample_host true)).2.state.loaded = true
      ∧ sonames_loaded
          ((fire_two (Trigger.invalidation 0 16385) (Trigger.parse 11 12) LoaderState.initial
              (sample_host true) (sample_host true)).1.trace
            ++ (fire_two (Trigger.invalidation 0 16385) (Trigger.parse 11 12)
              LoaderState.initial (sample_host true) (sample_host true)).2.trace)
          = ["timescaledb-1.2.0"])
    ∧ fire_two (Trigger.invalidation 0 16385) (Trigger.parse 11 12) LoaderState.initial
          (sample_host true) (sample_host true)
        = fire_two (Trigger.parse 11 12) (Trigger.invalidation 0 16385) LoaderState.initial
          (sample_host true) (sample_host true) :=
  ⟨by decide,
   (trigger_order_independence LoaderState.initial (sample_host true) (sample_host true)
     0 16385 11 12).2.2.1⟩

/-! ## `utils.c`: lemmas on machine arithmetic -/

theorem wrap64_of_in_int64 (x : Int) (h : in_int64 x) : wrap64 x = x := by
  unfold in_int64 INT64_MIN INT64_MAX at h
  unfold wrap64
  omega

theorem tmod_neg_bounds (t p : Int) (ht : t < 0) (hp : 0 < p) :
    -p < Int.tmod t p ∧ Int.tmod t p ≤ 0 := by
  obtain ⟨n, rfl⟩ := Int.eq_negSucc_of_lt_zero ht
  obtain ⟨m, rfl⟩ := Int.eq_ofNat_of_zero_le (le_of_lt hp)
  have hm : 0 < m := by omega
  have h1 : (n + 1) % m < m := Nat.mod_lt _ hm
  have h2 : Int.tmod (Int.negSucc n) (m : Int) = -(((n + 1) % m : Nat) : Int) := rfl
  rw [h2]
  omega

theorem tdiv_bounds (t p : Int) (hp : 0 < p) :
    (0 ≤ t → 0 ≤ Int.tdiv t p ∧ Int.tdiv t p ≤ t)
    ∧ (t < 0 → t ≤ Int.tdiv t p ∧ Int.tdiv t p ≤ 0) := by
  constructor
  · intro ht
    obtain ⟨n, rfl⟩ := Int.eq_ofNat_of_zero_le ht
    obtain ⟨m, rfl⟩ := Int.eq_ofNat_of_zero_le (le_of_lt hp)
    have h2 : Int.tdiv (n : Int) (m : Int) = ((n / m : Nat) : Int) := rfl
    rw [h2]
    have h3 : n / m ≤ n := Nat.div_le_self n m
    generalize n / m = q at h3 ⊢
    omega
  · intro ht
    obtain ⟨n, rfl⟩ := Int.eq_negSucc_of_lt_zero ht
    obtain ⟨m, rfl⟩ := Int.eq_ofNat_of_zero_le (le_of_lt hp)
    have h2 : Int.tdiv (Int.negSucc n) (m : Int) = -(((n + 1) / m : Nat) : Int) := rfl
    rw [h2, Int.negSucc_eq]
    have h3 : (n + 1) / m ≤ n + 1 := Nat.div_le_self _ m
    generalize (n + 1) / m = q at h3 ⊢
    omega

/-- The remainder of C's division by a positive divisor: smaller in size than
the divisor, and of the sign of the dividend. -/
theorem tmod_bounds (t p : Int) (hp : 0 < p) :
    -p < Int.tmod t p ∧ Int.tmod t p < p
    ∧ (0 ≤ t → 0 ≤ Int.tmod t p) ∧ (t < 0 → Int.tmod t p ≤ 0) := by
  have hlt := Int.tmod_lt_of_pos t hp
  by_cases ht : 0 ≤ t
  · have h0 := Int.tmod_nonneg p ht
    exact ⟨by omega, hlt, fun _ => h0, fun h => by omega⟩
  · have hneg := tmod_neg_bounds t p (by omega) hp
    exact ⟨hneg.1, hlt, fun h => by omega, fun _ => hneg.2⟩

/-- On `int64` operands with a positive divisor, `TMODULO` leaves the remainder
and the quotient of C's division, no step leaving `int64`. -/
theorem TMODULO_eq (t p : Int) (ht : in_int64 t) (hp : 0 < p) (hpr : in_int64 p) :
    TMODULO t p = (Int.tmod t p, Int.tdiv t p) := by
  have hq := tdiv_bounds t p hp
  have hr := tmod_bounds t p hp
  have hdef := Int.tdiv_add_tmod t p
  have hqr : in_int64 (Int.tdiv t p) := by
    unfold in_int64 INT64_MIN INT64_MAX at ht ⊢
    by_cases h0 : 0 ≤ t
    · have := hq.1 h0; omega
    · have := hq.2 (by omega); omega
  have hmul : Int.tdiv t p * p = t - Int.tmod t p := by
    have : Int.tdiv t p * p = p * Int.tdiv t p := Int.mul_comm _ _
    omega
  have hmulr : in_int64 (Int.tdiv t p * p) := by
    rw [hmul]
    unfold in_int64 INT64_MIN INT64_MAX at ht hpr ⊢
    by_cases h0 : 0 ≤ t
    · have h1 := hr.2.2.1 h0
      have h2 : 0 ≤ Int.tdiv t p * p := Int.mul_nonneg (hq.1 h0).1 (le_of_lt hp)
      omega
    · have h1 := hr.2.2.2 (by omega)
      have h2 : Int.tdiv t p * p ≤ 0 :=
        Int.mul_nonpos_of_nonpos_of_nonneg (hq.2 (by omega)).2 (le_of_lt hp)
      omega
  have hremr : in_int64 (t - Int.tdiv t p * p) := by
    rw [hmul]
    unfold in_int64 INT64_MIN INT64_MAX at hpr ⊢
    omega
  unfold TMODULO
  simp only [wrap64_of_in_int64 _ hqr, wrap64_of_in_int64 _ hmulr,
    wrap64_of_in_int64 _ hremr]
  by_cases hz : Int.tdiv t p = 0
  · have : Int.tmod t p = t := by rw [hz] at hdef; omega
    simp [hz, this]
  · have : t - Int.tdiv t p * p = Int.tmod t p := by omega
    simp [hz, this]

theorem get_interval_period_eq (interval : Interval) (hmonth : interval.month = 0)
    (h1 : in_int64 (interval.day * USECS_PER_DAY))
    (h2 : in_int64 (interval.time + interval.day * USECS_PER_DAY)) :
    get_interval_period interval
      = Except.ok (interval.time + interval.day * USECS_PER_DAY) := by
  unfold get_interval_period
  simp [hmonth, wrap64_of_in_int64 _ h1, wrap64_of_in_int64 _ h2]

theorem timestamptz_bucket_eq (interval : Interval) (t : Int) :
    timestamptz_bucket interval t = timestamp_bucket interval t := rfl

/-- What `timestamp_bucket` computes for a finite timestamp, a month-free
interval with a positive period, and no overflow. -/
theorem timestamp_bucket_eq (interval : Interval) (t : Int)
    (ht : in_int64 t) (hfin : TIMESTAMP_NOT_FINITE t = false)
    (hmonth : interval.month = 0)
    (hpos : 0 < interval.time + interval.day * USECS_PER_DAY)
    (hno : bucket_no_overflow interval t) :
    timestamp_bucket interval t
      = Except.ok (Int.tdiv t (interval.time + interval.day * USECS_PER_DAY)
          * (interval.time + interval.day * USECS_PER_DAY)
          - (if Int.tmod t (interval.time + interval.day * USECS_PER_DAY) < 0
              then interval.time + interval.day * USECS_PER_DAY else 0)) := by
  obtain ⟨h1, h2, h3⟩ := hno
  have hT := TMODULO_eq t _ ht hpos h2
  have hr := tmod_bounds t _ hpos
  have hq := tdiv_bounds t _ hpos
  have hdef := Int.tdiv_add_tmod t (interval.time + interval.day * USECS_PER_DAY)
  unfold timestamp_bucket
  rw [hfin, get_interval_period_eq interval hmonth h1 h2]
  have hne : ((interval.time + interval.day * USECS_PER_DAY) == 0) = false := by
    simp; omega
  simp only [hne, hT, Bool.false_eq_true, if_false]
  generalize hp : interval.time + interval.day * USECS_PER_DAY = p at *
  have hmul : Int.tdiv t p * p = t - Int.tmod t p := by
    have : Int.tdiv t p * p = p * Int.tdiv t p := Int.mul_comm _ _
    omega
  have hmulr : in_int64 (Int.tdiv t p * p) := by
    rw [hmul]
    unfold in_int64 INT64_MIN INT64_MAX at ht h2 ⊢
    by_cases h0 : 0 ≤ t
    · have h1 := hr.2.2.1 h0
      have h2 : 0 ≤ Int.tdiv t p * p := Int.mul_nonneg (hq.1 h0).1 (le_of_lt hpos)
      omega
    · have h1 := hr.2.2.2 (by omega)
      have h2 : Int.tdiv t p * p ≤ 0 :=
        Int.mul_nonpos_of_nonpos_of_nonneg (hq.2 (by omega)).2 (le_of_lt hpos)
      omega
  by_cases hrem : Int.tmod t p < 0
  · simp only [hrem, if_true, wrap64_of_in_int64 _ hmulr, wrap64_of_in_int64 _ (h3 hrem)]
  · simp only [hrem, if_false, wrap64_of_in_int64 _ hmulr, Int.sub_zero]

/-- The floor property of the value `timestamp_bucket` computes. -/
theorem floor_of_truncated (t p : Int) (hp : 0 < p) :
    (Int.tdiv t p * p - (if Int.tmod t p < 0 then p else 0)) % p = 0
    ∧ Int.tdiv t p * p - (if Int.tmod t p < 0 then p else 0) ≤ t
    ∧ t < Int.tdiv t p * p - (if Int.tmod t p < 0 then p else 0) + p := by
  have hr := tmod_bounds t p hp
  have hdef := Int.tdiv_add_tmod t p
  have hmul : Int.tdiv t p * p = t - Int.tmod t p := by
    have : Int.tdiv t p * p = p * Int.tdiv t p := Int.mul_comm _ _
    omega
  by_cases hrem : Int.tmod t p < 0
  · simp only [hrem, if_true]
    refine ⟨?_, by omega, by omega⟩
    have : Int.tdiv t p * p - p = p * (Int.tdiv t p - 1) := by ring
    rw [this]
    exact Int.mul_emod_right p _
  · simp only [hrem, if_false, Int.sub_zero]
    refine ⟨Int.mul_emod_left _ p, by omega, by omega⟩

/-- A multiple of a positive `p` that is below `r + p`, for a multiple `r` of
`p`, is at most `r`. -/
theorem multiple_le_of_lt_add (p r k : Int) (hp : 0 < p) (hr : r % p = 0)
    (hk : k * p < r + p) : k * p ≤ r := by
  obtain ⟨j, hj⟩ := Int.dvd_of_emod_eq_zero hr
  have hlt : k * p < (j + 1) * p := by
    have : (j + 1) * p = r + p := by rw [hj]; ring
    omega
  have hkj : k < j + 1 := lt_of_mul_lt_mul_right hlt (le_of_lt hp)
  have hle : k ≤ j := by omega
  have : k * p ≤ j * p := Int.mul_le_mul_of_nonneg_right hle (le_of_lt hp)
  have hjp : j * p = r := by rw [hj]; ring
  omega

/-- The value `pg_unix_microseconds_to_timestamp` returns from its lower bound on. -/
theorem pg_unix_microseconds_to_timestamp_bounds_aux (m : Int) (hm : in_int64 m)
    (hlo : -210866803200000000 ≤ m) :
    pg_unix_microseconds_to_timestamp m = Except.ok (m - 946684800000000) := by
  have hbound : wrap64 (USECS_PER_DAY * (DATETIME_MIN_JULIAN - UNIX_EPOCH_JDATE))
      = -210866803200000000 := by decide
  have hdiff : wrap64 ((POSTGRES_EPOCH_JDATE - UNIX_EPOCH_JDATE) * USECS_PER_DAY)
      = 946684800000000 := by decide
  have hr : in_int64 (m - 946684800000000) := by
    unfold in_int64 INT64_MIN INT64_MAX at hm ⊢
    omega
  unfold pg_unix_microseconds_to_timestamp
  rw [hbound, hdiff, wrap64_of_in_int64 _ hr]
  have : ¬ m < -210866803200000000 := by omega
  simp only [this, if_false]

/-! ## `utils.c`: claims -/

/-- C14. Floor bucketing: for every finite `int64` timestamp `t` and every
interval with `month = 0` whose period `p = time + day * USECS_PER_DAY` is
positive, when no step of the computation leaves `int64`, `timestamp_bucket` and
`timestamptz_bucket` both return one value `r`, the greatest multiple of `p`
that is at most `t`: `r mod p = 0`, `r ≤ t < r + p`, and no other multiple of
`p` at most `t` is larger; `r` is the truncated quotient times `p`, minus one
more period exactly when the remainder of C's division is negative. -/
theorem timestamp_bucket_floor (interval : Interval) (t : Int)
    (ht : in_int64 t) (hfin : TIMESTAMP_NOT_FINITE t = false)
    (hmonth : interval.month = 0)
    (hpos : 0 < interval.time + interval.day * USECS_PER_DAY)
    (hno : bucket_no_overflow interval t) :
    ∃ r : Int,
      timestamp_bucket interval t = Except.ok r
      ∧ timestamptz_bucket interval t = Except.ok r
      ∧ r % (interval.time + interval.day * USECS_PER_DAY) = 0
      ∧ r ≤ t
      ∧ t < r + (interval.time + interval.day * USECS_PER_DAY)
      ∧ (∀ k : Int, k * (interval.time + interval.day * USECS_PER_DAY) ≤ t →
          k * (interval.time + interval.day * USECS_PER_DAY) ≤ r)
      ∧ r = Int.tdiv t (interval.time + interval.day * USECS_PER_DAY)
              * (interval.time + interval.day * USECS_PER_DAY)
            - (if Int.tmod t (interval.time + interval.day * USECS_PER_DAY) < 0
                then interval.time + interval.day * USECS_PER_DAY else 0) := by
  have hE := timestamp_bucket_eq interval t ht hfin hmonth hpos hno
  obtain ⟨hm, hle, hlt⟩ := floor_of_truncated t _ hpos
  refine ⟨_, hE, ?_, hm, hle, hlt, ?_, rfl⟩
  · rw [timestamptz_bucket_eq, hE]
  · intro k hk
    exact multiple_le_of_lt_add _ _ k hpos hm (by omega)

/-- C14 at a concrete input: the timestamp `-1` (one microsecond before the
epoch) bucketed by one day gives the start of the day before the epoch. -/
theorem timestamp_bucket_floor_witness :
    ∃ r : Int,
      timestamp_bucket ⟨0, 1, 0⟩ (-1) = Except.ok r
      ∧ timestamptz_bucket ⟨0, 1, 0⟩ (-1) = Except.ok r
      ∧ r % ((⟨0, 1, 0⟩ : Interval).time + (⟨0, 1, 0⟩ : Interval).day * USECS_PER_DAY) = 0
      ∧ r ≤ -1
      ∧ -1 < r + ((⟨0, 1, 0⟩ : Interval).time + (⟨0, 1, 0⟩ : Interval).day * USECS_PER_DAY)
      ∧ (∀ k : Int,
          k * ((⟨0, 1, 0⟩ : Interval).time + (⟨0, 1, 0⟩ : Interval).day * USECS_PER_DAY) ≤ -1 →
          k * ((⟨0, 1, 0⟩ : Interval).time + (⟨0, 1, 0⟩ : Interval).day * USECS_PER_DAY) ≤ r)
      ∧ r = Int.tdiv (-1)
                ((⟨0, 1, 0⟩ : Interval).time + (⟨0, 1, 0⟩ : Interval).day * USECS_PER_DAY)
              * ((⟨0, 1, 0⟩ : Interval).time + (⟨0, 1, 0⟩ : Interval).day * USECS_PER_DAY)
            - (if Int.tmod (-1)
                  ((⟨0, 1, 0⟩ : Interval).time + (⟨0, 1, 0⟩ : Interval).day * USECS_PER_DAY) < 0
                then (⟨0, 1, 0⟩ : Interval).time + (⟨0, 1, 0⟩ : Interval).day * USECS_PER_DAY
                else 0) :=
  timestamp_bucket_floor ⟨0, 1, 0⟩ (-1) (by decide) (by decide) rfl (by decide) (by decide)

/-- C15. Bounds of `pg_unix_microseconds_to_timestamp`: the lower bound
`USECS_PER_DAY * (DATETIME_MIN_JULIAN - UNIX_EPOCH_JDATE)` is
`-210866803200000000`; for every `int64` value of microseconds from that bound up
to `INT64_MAX` the function raises no error, the subtraction of the epoch
difference `946684800000000` does not leave `int64`, and the result is a valid
timestamp, from `MIN_TIMESTAMP` and below `END_TIMESTAMP`; for every value below
the bound it raises `timestamp out of range`. -/
theorem pg_unix_microseconds_to_timestamp_bounds (m : Int) (hm : in_int64 m) :
    USECS_PER_DAY * (DATETIME_MIN_JULIAN - UNIX_EPOCH_JDATE) = -210866803200000000
    ∧ (-210866803200000000 ≤ m →
        pg_unix_microseconds_to_timestamp m = Except.ok (m - 946684800000000)
        ∧ in_int64 (m - 946684800000000)
        ∧ MIN_TIMESTAMP ≤ m - 946684800000000
        ∧ m - 946684800000000 < END_TIMESTAMP)
    ∧ (m < -210866803200000000 →
        pg_unix_microseconds_to_timestamp m
          = Except.error UtilsError.timestamp_out_of_range) := by
  have hbound : wrap64 (USECS_PER_DAY * (DATETIME_MIN_JULIAN - UNIX_EPOCH_JDATE))
      = -210866803200000000 := by decide
  have hdiff : wrap64 ((POSTGRES_EPOCH_JDATE - UNIX_EPOCH_JDATE) * USECS_PER_DAY)
      = 946684800000000 := by decide
  refine ⟨by decide, ?_, ?_⟩
  · intro hlo
    have hr : in_int64 (m - 946684800000000) := by
      unfold in_int64 INT64_MIN INT64_MAX at hm ⊢
      omega
    refine ⟨?_, hr, ?_, ?_⟩
    · unfold pg_unix_microseconds_to_timestamp
      rw [hbound, hdiff, wrap64_of_in_int64 _ hr]
      have : ¬ m < -210866803200000000 := by omega
      simp only [this, if_false]
    · unfold MIN_TIMESTAMP; omega
    · unfold in_int64 INT64_MIN INT64_MAX at hm
      unfold END_TIMESTAMP; omega
  · intro hlt
    unfold pg_unix_microseconds_to_timestamp
    rw [hbound]
    simp only [hlt, if_true]

/-- C15 at a concrete input: `INT64_MAX` microseconds. -/
theorem pg_unix_microseconds_to_timestamp_bounds_witness :
    USECS_PER_DAY * (DATETIME_MIN_JULIAN - UNIX_EPOCH_JDATE) = -210866803200000000
    ∧ (-210866803200000000 ≤ INT64_MAX →
        pg_unix_microseconds_to_timestamp INT64_MAX = Except.ok (INT64_MAX - 946684800000000)
        ∧ in_int64 (INT64_MAX - 946684800000000)
        ∧ MIN_TIMESTAMP ≤ INT64_MAX - 946684800000000
        ∧ INT64_MAX - 946684800000000 < END_TIMESTAMP)
    ∧ (INT64_MAX < -210866803200000000 →
        pg_unix_microseconds_to_timestamp INT64_MAX
          = Except.error UtilsError.timestamp_out_of_range) :=
  pg_unix_microseconds_to_timestamp_bounds INT64_MAX (by decide)

/-- C16, the code at a failing input, and what the code computes.  With
`shared_buffers` of 16384 blocks, `effective_cache_size` of 524288 blocks and
16 GiB of system memory the function returns 8 GiB, where the documented
estimate is 4 GiB.  In general, for settings that parse to `int` values, it
returns the maximum of four times `shared_buffers` and twice
`effective_cache_size`, in bytes, capped at the system memory. -/
theorem estimate_effective_memory_doubled :
    estimate_effective_memory sample_memory_host = Except.ok 8589934592
    ∧ documented_effective_memory 16384 524288 17179869184 = 4294967296
    ∧ ∀ (host : MemoryHost) (v1 v2 : String) (sb ecs : Int),
        host.GetConfigOption "shared_buffers" = some v1 → host.parse_int v1 = some sb →
        host.GetConfigOption "effective_cache_size" = some v2 → host.parse_int v2 = some ecs →
        in_int32 sb → in_int32 ecs →
        estimate_effective_memory host
          = Except.ok (min host.system_memory_bytes (BLCKSZ * max (4 * sb) (2 * ecs))) := by
  refine ⟨by decide, by decide, ?_⟩
  intro host v1 v2 sb ecs h1 h2 h3 h4 hsb hecs
  unfold in_int32 INT_MIN INT_MAX at hsb hecs
  have w1 : wrap64 (sb * 4) = sb * 4 :=
    wrap64_of_in_int64 _ (by unfold in_int64 INT64_MIN INT64_MAX; omega)
  have w2 : wrap64 (ecs * 2) = ecs * 2 :=
    wrap64_of_in_int64 _ (by unfold in_int64 INT64_MIN INT64_MAX; omega)
  have hmax : Max (sb * 4) (ecs * 2) = max (4 * sb) (2 * ecs) := by
    unfold Max
    split <;> omega
  have w3 : wrap64 (max (4 * sb) (2 * ecs) * BLCKSZ) = BLCKSZ * max (4 * sb) (2 * ecs) := by
    unfold BLCKSZ
    rw [wrap64_of_in_int64 _ (by unfold in_int64 INT64_MIN INT64_MAX; omega)]
    omega
  unfold estimate_effective_memory
  simp only [h1, h2, h3, h4, w1, w2, hmax, w3]
  split
  · rw [min_eq_left (by omega)]
  · rw [min_eq_right (by omega)]

/-- C17. Epoch round trip, PostgreSQL to UNIX and back: `pg_timestamp_to_unix_microseconds`
accepts an `int64` timestamp `t` exactly when `MIN_TIMESTAMP ≤ t` and
`t < END_TIMESTAMP - 946684800000000`; for every such `t` it returns
`t + 946684800000000`, and `pg_unix_microseconds_to_timestamp` applied to that
result raises no error and returns exactly `t`. -/
theorem epoch_round_trip_from_timestamp (t : Int) :
    ((∃ m, pg_timestamp_to_unix_microseconds t = Except.ok m)
      ↔ (MIN_TIMESTAMP ≤ t ∧ t < END_TIMESTAMP - 946684800000000))
    ∧ ((MIN_TIMESTAMP ≤ t ∧ t < END_TIMESTAMP - 946684800000000) →
        pg_timestamp_to_unix_microseconds t = Except.ok (t + 946684800000000)
        ∧ pg_unix_microseconds_to_timestamp (t + 946684800000000) = Except.ok t) := by
  have hdiff : epoch_diff_microseconds = 946684800000000 := by decide
  have hend : wrap64 (END_TIMESTAMP - 946684800000000) = END_TIMESTAMP - 946684800000000 := by
    decide
  have hok : (MIN_TIMESTAMP ≤ t ∧ t < END_TIMESTAMP - 946684800000000) →
      pg_timestamp_to_unix_microseconds t = Except.ok (t + 946684800000000) := by
    rintro ⟨hlo, hhi⟩
    have hr : in_int64 (t + 946684800000000) := by
      unfold MIN_TIMESTAMP at hlo
      unfold END_TIMESTAMP at hhi
      unfold in_int64 INT64_MIN INT64_MAX
      omega
    unfold pg_timestamp_to_unix_microseconds
    rw [hdiff, hend, wrap64_of_in_int64 _ hr]
    have h1 : ¬ t < MIN_TIMESTAMP := by omega
    have h2 : ¬ t ≥ END_TIMESTAMP - 946684800000000 := by omega
    simp only [h1, h2, if_false]
  refine ⟨⟨?_, fun h => ⟨_, hok h⟩⟩, fun h => ⟨hok h, ?_⟩⟩
  · rintro ⟨m, hm⟩
    unfold pg_timestamp_to_unix_microseconds at hm
    rw [hdiff, hend] at hm
    by_cases h1 : t < MIN_TIMESTAMP
    · simp [h1] at hm
    · by_cases h2 : t ≥ END_TIMESTAMP - 946684800000000
      · simp [h1, h2] at hm
      · omega
  · obtain ⟨hlo, hhi⟩ := h
    have hlo2 : -210866803200000000 ≤ t + 946684800000000 := by
      unfold MIN_TIMESTAMP at hlo; omega
    have hr : in_int64 (t + 946684800000000) := by
      unfold END_TIMESTAMP at hhi
      unfold in_int64 INT64_MIN INT64_MAX
      omega
    have := ((pg_unix_microseconds_to_timestamp_bounds_aux (t + 946684800000000) hr) hlo2)
    rw [this]
    congr 1
    omega

/-- C17 at a concrete input: the timestamp `0`, the PostgreSQL epoch. -/
theorem epoch_round_trip_from_timestamp_witness :
    pg_timestamp_to_unix_microseconds 0 = Except.ok (0 + 946684800000000)
    ∧ pg_unix_microseconds_to_timestamp (0 + 946684800000000) = Except.ok 0 :=
  (epoch_round_trip_from_timestamp 0).2 (by decide)

/-- C18 as stated fails: `INT64_MAX` microseconds are accepted by
`pg_unix_microseconds_to_timestamp`, and `pg_timestamp_to_unix_microseconds`
raises `timestamp out of range` on the timestamp it returns; the same holds at
`END_TIMESTAMP` microseconds. -/
theorem epoch_round_trip_from_unix_counterexample :
    -210866803200000000 ≤ INT64_MAX
    ∧ pg_unix_microseconds_to_timestamp INT64_MAX = Except.ok 9222425352054775807
    ∧ pg_timestamp_to_unix_microseconds 9222425352054775807
        = Except.error UtilsError.timestamp_out_of_range
    ∧ pg_unix_microseconds_to_timestamp 9223371331200000000 = Except.ok 9222424646400000000
    ∧ pg_timestamp_to_unix_microseconds 9222424646400000000
        = Except.error UtilsError.timestamp_out_of_range := by
  decide

/-- C18, amended. Epoch round trip, UNIX to PostgreSQL and back: for every
`int64` value `m` of microseconds that `pg_unix_microseconds_to_timestamp`
accepts (`m ≥ -210866803200000000`) and that is below `END_TIMESTAMP`
(`9223371331200000000`), `pg_timestamp_to_unix_microseconds` applied to its
result raises no error and returns exactly `m`; for `m` from `END_TIMESTAMP` up
to `INT64_MAX` it raises `timestamp out of range`. -/
theorem epoch_round_trip_from_unix (m : Int) (hm : in_int64 m)
    (hlo : -210866803200000000 ≤ m) :
    pg_unix_microseconds_to_timestamp m = Except.ok (m - 946684800000000)
    ∧ (m < 9223371331200000000 →
        pg_timestamp_to_unix_microseconds (m - 946684800000000) = Except.ok m)
    ∧ (9223371331200000000 ≤ m →
        pg_timestamp_to_unix_microseconds (m - 946684800000000)
          = Except.error UtilsError.timestamp_out_of_range) := by
  have hdiff : epoch_diff_microseconds = 946684800000000 := by decide
  have hend : wrap64 (END_TIMESTAMP - 946684800000000) = 9222424646400000000 := by
    decide
  refine ⟨pg_unix_microseconds_to_timestamp_bounds_aux m hm hlo, ?_, ?_⟩
  · intro hhi
    have hr : in_int64 (m - 946684800000000 + 946684800000000) := by
      unfold in_int64 INT64_MIN INT64_MAX at hm ⊢
      omega
    unfold pg_timestamp_to_unix_microseconds
    rw [hdiff, hend, wrap64_of_in_int64 _ hr]
    have h1 : ¬ m - 946684800000000 < MIN_TIMESTAMP := by unfold MIN_TIMESTAMP; omega
    have h2 : ¬ m - 946684800000000 ≥ 9222424646400000000 := by omega
    simp only [h1, h2, if_false]
    congr 1
    omega
  · intro hhi
    unfold pg_timestamp_to_unix_microseconds
    rw [hdiff, hend]
    have h1 : ¬ m - 946684800000000 < MIN_TIMESTAMP := by unfold MIN_TIMESTAMP; omega
    have h2 : m - 946684800000000 ≥ 9222424646400000000 := by omega
    simp only [h1, h2, if_false, if_true]

/-- C18 (amended) at a concrete input: `0` microseconds, the UNIX epoch. -/
theorem epoch_round_trip_from_unix_witness :
    pg_unix_microseconds_to_timestamp 0 = Except.ok (0 - 946684800000000)
    ∧ ((0 : Int) < 9223371331200000000 →
        pg_timestamp_to_unix_microseconds (0 - 946684800000000) = Except.ok 0)
    ∧ ((9223371331200000000 : Int) ≤ 0 →
        pg_timestamp_to_unix_microseconds (0 - 946684800000000)
          = Except.error UtilsError.timestamp_out_of_range) :=
  epoch_round_trip_from_unix 0 (by decide) (by decide)

/-- C19, the code at failing inputs. With the subtraction taken in 32-bit
two's-complement arithmetic, `int_cmp` of `INT_MAX` and `-1` is negative although
the first is the greater, and `int_cmp` of `INT_MIN` and `1` is positive although
the first is the smaller.  The sign is that of a three-way comparison for every
pair whose difference fits an `int`. -/
theorem int_cmp_overflow :
    int_cmp 2147483647 (-1) = -2147483648
    ∧ int_cmp (-2147483648) 1 = 2147483647
    ∧ ∀ a b : Int, in_int32 (a - b) →
        (int_cmp a b < 0 ↔ a < b) ∧ (int_cmp a b = 0 ↔ a = b) ∧ (0 < int_cmp a b ↔ b < a) := by
  refine ⟨by decide, by decide, ?_⟩
  intro a b hd
  unfold in_int32 INT_MIN INT_MAX at hd
  unfold int_cmp wrap32
  omega

end TimescaleDB
